import Mathlib

/-!
Verification of a minimal todo REST service with two interchangeable
storage variants: a relational (PostgreSQL-backed) one and a file-backed
one keeping the dataset in an in-memory list.  Both variants expose the
same router; handlers are embedded here as pure state-passing functions.
-/

/-- A todo record: `id`, `title`, `done`, mirroring the Go struct `Todo`. -/
structure Todo where
  id : Int
  title : String
  done : Bool
deriving DecidableEq, Repr

/-- The JSON value written as a response body.  `jnull` is what Go's
`encoding/json` produces for a nil slice; `jarr` for a non-nil slice;
`jobj` for a single record; `errText` for the plain-text bodies written
by `http.Error` / `http.NotFound`; `empty` for no body at all. -/
inductive Body where
  | empty : Body
  | jnull : Body
  | jarr : List Todo → Body
  | jobj : Todo → Body
  | errText : String → Body
deriving DecidableEq, Repr

/-- An HTTP response: status code plus body. -/
structure Resp where
  status : Nat
  body : Body
deriving DecidableEq, Repr

/-- Digit-string to number; fails on the empty string or any non-digit,
as `strconv.Atoi` does on the part after the optional sign. -/
def digitsToNat : List Char → Option Nat
  | [] => none
  | cs =>
    cs.foldl (fun acc c =>
      match acc with
      | none => none
      | some n => if c.isDigit then some (n * 10 + (c.toNat - 48)) else none)
      (some 0)

/-- Go's `strconv.Atoi`: optional sign, then digits, whole string consumed. -/
def goAtoi (s : String) : Option Int :=
  match s.data with
  | [] => none
  | '+' :: cs => (digitsToNat cs).map Int.ofNat
  | '-' :: cs => (digitsToNat cs).map (fun n => -(n : Int))
  | cs => (digitsToNat cs).map Int.ofNat

/-- Go's `strings.TrimPrefix s pre`: drop `pre` when it heads `s`, else `s`. -/
def goTrimPre (s pre : String) : String :=
  if pre.data.isPrefixOf s.data then ⟨s.data.drop pre.data.length⟩ else s

/-- Go's `strings.TrimSuffix s suf`: drop `suf` when it ends `s`, else `s`. -/
def goTrimSuf (s suf : String) : String :=
  if suf.data.isSuffixOf s.data then ⟨s.data.take (s.data.length - suf.data.length)⟩ else s

/-- Go's `strings.HasPrefix`. -/
def goHasPre (s pre : String) : Bool :=
  pre.data.isPrefixOf s.data

/-- Go's `strings.HasSuffix`. -/
def goHasSuf (s suf : String) : Bool :=
  suf.data.isSuffixOf s.data

namespace FileBackend

/-- The file-backed variant's global state: the in-memory `todos` slice and
the `nextID` counter. -/
structure FState where
  todos : List Todo
  nextID : Int
deriving DecidableEq, Repr

/-- Initial state: `todos = []Todo{}`, `nextID = 1`. -/
def initState : FState := ⟨[], 1⟩

/-- One iteration of `loadTodosFromFile`'s loop:
`if t.ID >= nextID { nextID = t.ID + 1 }`. -/
def bump (n : Int) (t : Todo) : Int := if t.id ≥ n then t.id + 1 else n

/-- The counter value computed by `loadTodosFromFile`'s loop, starting from 1. -/
def loadNextID (l : List Todo) : Int :=
  l.foldl bump 1

/-- State after `loadTodosFromFile` succeeds on a file decoding to `l`. -/
def loadState (l : List Todo) : FState := ⟨l, loadNextID l⟩

/-- `getTodos`: encode the whole slice, implicit 200. -/
def getTodos (s : FState) : Resp := ⟨200, .jarr s.todos⟩

/-- Body of `getTodo` after the id parsed: first record with that id, else 404. -/
def getTodoCore (s : FState) (id : Int) : Resp :=
  match s.todos.find? (fun t => t.id == id) with
  | some t => ⟨200, .jobj t⟩
  | none => ⟨404, .empty⟩

/-- `getTodo`: parse id from the path, then look it up. -/
def getTodo (s : FState) (path : String) : Resp :=
  match goAtoi (goTrimPre path "/todos/") with
  | none => ⟨400, .errText "Invalid ID"⟩
  | some id => getTodoCore s id

/-- Body of `createTodo` after a successful decode of `t0`: overwrite the id
with `nextID`, advance the counter, append, return the record. -/
def createTodoCore (s : FState) (t0 : Todo) : FState × Todo :=
  let t : Todo := { t0 with id := s.nextID }
  (⟨s.todos ++ [t], s.nextID + 1⟩, t)

/-- `createTodo`: decode the body (`none` = decode failure ⇒ 400), else 201. -/
def createTodo (s : FState) (body : Option Todo) : FState × Resp :=
  match body with
  | none => (s, ⟨400, .errText "Bad Request"⟩)
  | some t0 =>
    let r := createTodoCore s t0
    (r.1, ⟨201, .jobj r.2⟩)

/-- The update loop: replace the first record whose id matches with the
decoded body carrying the old id; `none` when no record matches. -/
def updateFirst (id : Int) (upd : Todo) : List Todo → Option (List Todo)
  | [] => none
  | t :: rest =>
    if t.id == id then some ({ upd with id := id } :: rest)
    else (updateFirst id upd rest).map (fun l => t :: l)

/-- Body of `updateTodo` after id parse and body decode both succeeded. -/
def updateTodoCore (s : FState) (id : Int) (upd : Todo) : FState × Resp :=
  match updateFirst id upd s.todos with
  | some l => (⟨l, s.nextID⟩, ⟨200, .jobj { upd with id := id }⟩)
  | none => (s, ⟨404, .empty⟩)

/-- `updateTodo`: parse id, decode body, then run the update loop. -/
def updateTodo (s : FState) (path : String) (body : Option Todo) : FState × Resp :=
  match goAtoi (goTrimPre path "/todos/") with
  | none => (s, ⟨400, .errText "Invalid ID"⟩)
  | some id =>
    match body with
    | none => (s, ⟨400, .errText "Bad Request"⟩)
    | some upd => updateTodoCore s id upd

/-- The mark-done loop: set `done := true` on the first record whose id
matches, returning the new list and the refreshed record. -/
def setDoneFirst (id : Int) : List Todo → Option (List Todo × Todo)
  | [] => none
  | t :: rest =>
    if t.id == id then some ({ t with done := true } :: rest, { t with done := true })
    else (setDoneFirst id rest).map (fun p => (t :: p.1, p.2))

/-- Body of `markAsDone` after the id parsed. -/
def markAsDoneCore (s : FState) (id : Int) : FState × Resp :=
  match setDoneFirst id s.todos with
  | some p => (⟨p.1, s.nextID⟩, ⟨200, .jobj p.2⟩)
  | none => (s, ⟨404, .empty⟩)

/-- `markAsDone`: trim the `/todos/` front and the `/done` tail, parse, run. -/
def markAsDone (s : FState) (path : String) : FState × Resp :=
  match goAtoi (goTrimSuf (goTrimPre path "/todos/") "/done") with
  | none => (s, ⟨400, .errText "Invalid ID"⟩)
  | some id => markAsDoneCore s id

/-- The delete loop: remove the first record whose id matches. -/
def deleteFirst (id : Int) : List Todo → Option (List Todo)
  | [] => none
  | t :: rest =>
    if t.id == id then some rest
    else (deleteFirst id rest).map (fun l => t :: l)

/-- Body of `deleteTodo` after the id parsed: 204 on removal, 404 otherwise. -/
def deleteTodoCore (s : FState) (id : Int) : FState × Resp :=
  match deleteFirst id s.todos with
  | some l => (⟨l, s.nextID⟩, ⟨204, .empty⟩)
  | none => (s, ⟨404, .empty⟩)

/-- `deleteTodo`: parse id from the path, then run the delete loop. -/
def deleteTodo (s : FState) (path : String) : FState × Resp :=
  match goAtoi (goTrimPre path "/todos/") with
  | none => (s, ⟨400, .errText "Invalid ID"⟩)
  | some id => deleteTodoCore s id

/-- The router's switch, in source order.  Note the PATCH case keys on the
`/done` suffix alone. -/
def router (s : FState) (method path : String) (body : Option Todo) : FState × Resp :=
  if method == "GET" && path == "/todos" then (s, getTodos s)
  else if method == "POST" && path == "/todos" then createTodo s body
  else if method == "GET" && goHasPre path "/todos/" then (s, getTodo s path)
  else if method == "PUT" && goHasPre path "/todos/" then updateTodo s path body
  else if method == "DELETE" && goHasPre path "/todos/" then deleteTodo s path
  else if method == "PATCH" && goHasSuf path "/done" then markAsDone s path
  else (s, ⟨404, .empty⟩)

end FileBackend

namespace PgBackend

/-- The relational variant's visible state: the rows of the `todos` table
and the next value of the `id SERIAL` column. -/
structure DbState where
  rows : List Todo
  serial : Int
deriving DecidableEq, Repr

/-- `SELECT id, title, done FROM todos ORDER BY id`. -/
def selectAllOrderById (rows : List Todo) : List Todo :=
  rows.insertionSort (fun a b => a.id ≤ b.id)

/-- `SELECT ... WHERE id = $1` read through `QueryRow`: the first matching
row, or no row (`Scan` error ⇒ the handler's not-found branch). -/
def queryRowById (rows : List Todo) (id : Int) : Option Todo :=
  rows.find? (fun t => t.id == id)

/-- `INSERT INTO todos (title, done) VALUES ($1,$2) RETURNING id`: the
serial column supplies the id, the new row is added, the id is returned. -/
def insertReturning (s : DbState) (title : String) (done : Bool) : DbState × Int :=
  (⟨s.rows ++ [⟨s.serial, title, done⟩], s.serial + 1⟩, s.serial)

/-- `UPDATE todos SET title = $1, done = $2 WHERE id = $3`. -/
def execUpdate (rows : List Todo) (title : String) (done : Bool) (id : Int) : List Todo :=
  rows.map (fun t => if t.id == id then ⟨id, title, done⟩ else t)

/-- `UPDATE todos SET done = true WHERE id = $1`. -/
def execSetDone (rows : List Todo) (id : Int) : List Todo :=
  rows.map (fun t => if t.id == id then { t with done := true } else t)

/-- `DELETE FROM todos WHERE id = $1`. -/
def execDelete (rows : List Todo) (id : Int) : List Todo :=
  rows.filter (fun t => !(t.id == id))

/-- `getTodos`: query ordered by id into a nil slice; zero rows leave the
slice nil, which `json.Encode` writes as `null`, otherwise a JSON array. -/
def getTodos (s : DbState) : Resp :=
  let l := selectAllOrderById s.rows
  if l.isEmpty then ⟨200, .jnull⟩ else ⟨200, .jarr l⟩

/-- Body of `getTodoById` after the id parsed. -/
def getTodoByIdCore (s : DbState) (id : Int) : Resp :=
  match queryRowById s.rows id with
  | some t => ⟨200, .jobj t⟩
  | none => ⟨404, .empty⟩

/-- `getTodoById`: parse the id from the path, then a single-row select. -/
def getTodoById (s : DbState) (path : String) : Resp :=
  match goAtoi (goTrimPre path "/todos/") with
  | none => ⟨400, .errText "Invalid ID"⟩
  | some id => getTodoByIdCore s id

/-- Body of `createTodo` after a successful decode of `t0`: insert with the
serial id, then `Scan(&t.ID)` overwrites the decoded id. -/
def createTodoCore (s : DbState) (t0 : Todo) : DbState × Todo :=
  let r := insertReturning s t0.title t0.done
  (r.1, { t0 with id := r.2 })

/-- `createTodo`: decode (`none` ⇒ 400), insert, 201 with the record. -/
def createTodo (s : DbState) (body : Option Todo) : DbState × Resp :=
  match body with
  | none => (s, ⟨400, .errText "Bad Request"⟩)
  | some t0 =>
    let r := createTodoCore s t0
    (r.1, ⟨201, .jobj r.2⟩)

/-- Body of `updateTodo` after id parse and decode: `Exec` the update
(no rows-affected check), set `updated.ID = id`, encode with implicit 200. -/
def updateTodoCore (s : DbState) (id : Int) (upd : Todo) : DbState × Resp :=
  (⟨execUpdate s.rows upd.title upd.done id, s.serial⟩, ⟨200, .jobj { upd with id := id }⟩)

/-- `updateTodo`: parse id, decode body, then the unconditional update. -/
def updateTodo (s : DbState) (path : String) (body : Option Todo) : DbState × Resp :=
  match goAtoi (goTrimPre path "/todos/") with
  | none => (s, ⟨400, .errText "Invalid ID"⟩)
  | some id =>
    match body with
    | none => (s, ⟨400, .errText "Bad Request"⟩)
    | some upd => updateTodoCore s id upd

/-- Body of `markAsDone` after the id parsed: `Exec` the done-update, then
re-select the row; a missing row surfaces as the 404 branch. -/
def markAsDoneCore (s : DbState) (id : Int) : DbState × Resp :=
  let rows := execSetDone s.rows id
  match queryRowById rows id with
  | some t => (⟨rows, s.serial⟩, ⟨200, .jobj t⟩)
  | none => (⟨rows, s.serial⟩, ⟨404, .empty⟩)

/-- `markAsDone`: trim `/todos/` and `/done`, parse, then update-then-read. -/
def markAsDone (s : DbState) (path : String) : DbState × Resp :=
  match goAtoi (goTrimSuf (goTrimPre path "/todos/") "/done") with
  | none => (s, ⟨400, .errText "Invalid ID"⟩)
  | some id => markAsDoneCore s id

/-- Body of `deleteTodo` after the id parsed: `Exec` the delete and answer
204 whether or not any row matched (no rows-affected check). -/
def deleteTodoCore (s : DbState) (id : Int) : DbState × Resp :=
  (⟨execDelete s.rows id, s.serial⟩, ⟨204, .empty⟩)

/-- `deleteTodo`: parse id from the path, then the unconditional delete. -/
def deleteTodo (s : DbState) (path : String) : DbState × Resp :=
  match goAtoi (goTrimPre path "/todos/") with
  | none => (s, ⟨400, .errText "Invalid ID"⟩)
  | some id => deleteTodoCore s id

/-- The router's switch, identical in shape to the file-backed one. -/
def router (s : DbState) (method path : String) (body : Option Todo) : DbState × Resp :=
  if method == "GET" && path == "/todos" then (s, getTodos s)
  else if method == "POST" && path == "/todos" then createTodo s body
  else if method == "GET" && goHasPre path "/todos/" then (s, getTodoById s path)
  else if method == "PUT" && goHasPre path "/todos/" then updateTodo s path body
  else if method == "DELETE" && goHasPre path "/todos/" then deleteTodo s path
  else if method == "PATCH" && goHasSuf path "/done" then markAsDone s path
  else (s, ⟨404, .empty⟩)

end PgBackend

/-- The guard disjunction of the router's switch: does some case fire? -/
def matchesSomeCase (method path : String) : Bool :=
  (method == "GET" && path == "/todos") || (method == "POST" && path == "/todos") ||
  (method == "GET" && goHasPre path "/todos/") || (method == "PUT" && goHasPre path "/todos/") ||
  (method == "DELETE" && goHasPre path "/todos/") || (method == "PATCH" && goHasSuf path "/done")

namespace FileBackend

/-- One mutating HTTP operation against the file-backed state, already past
id parsing and body decoding. -/
inductive Op where
  | create : Todo → Op
  | update : Int → Todo → Op
  | markDone : Int → Op
  | delete : Int → Op
deriving DecidableEq, Repr

/-- The state transition of one operation. -/
def step (s : FState) : Op → FState
  | .create t0 => (createTodoCore s t0).1
  | .update id upd => (updateTodoCore s id upd).1
  | .markDone id => (markAsDoneCore s id).1
  | .delete id => (deleteTodoCore s id).1

/-- Run a sequence of operations. -/
def run (s : FState) : List Op → FState
  | [] => s
  | op :: ops => run (step s op) ops

/-- The ids handed out by the create operations of a run, in order. -/
def assignedIds (s : FState) : List Op → List Int
  | [] => []
  | .create t0 :: ops => s.nextID :: assignedIds (step s (.create t0)) ops
  | op :: ops => assignedIds (step s op) ops

/-- The counter invariant: `nextID` is strictly above every stored id. -/
def Inv (s : FState) : Prop := ∀ t ∈ s.todos, t.id < s.nextID

/-- The dataset is kept in strictly ascending id order. -/
def SortedIds (s : FState) : Prop := (s.todos.map Todo.id).Pairwise (· < ·)

instance (s : FState) : Decidable (Inv s) :=
  inferInstanceAs (Decidable (∀ t ∈ s.todos, t.id < s.nextID))

end FileBackend

instance : IsTotal Todo (fun a b => a.id ≤ b.id) := ⟨fun a b => le_total a.id b.id⟩

instance : IsTrans Todo (fun a b => a.id ≤ b.id) := ⟨fun _ _ _ hab hbc => le_trans hab hbc⟩

namespace FileBackend

theorem updateFirst_map_id (id : Int) (upd : Todo) :
    ∀ (l l' : List Todo), updateFirst id upd l = some l' → l'.map Todo.id = l.map Todo.id := by
  intro l
  induction l with
  | nil => intro l' h; simp [updateFirst] at h
  | cons t rest ih =>
    intro l' h
    by_cases hc : t.id = id
    · simp only [updateFirst, hc, beq_self_eq_true, if_pos, Option.some.injEq] at h
      subst h
      simp [hc]
    · simp only [updateFirst, beq_iff_eq, hc, if_neg, not_false_iff, Option.map_eq_some'] at h
      obtain ⟨a, ha, rfl⟩ := h
      simp [ih a ha]

theorem setDoneFirst_map_id (id : Int) :
    ∀ (l : List Todo) (p : List Todo × Todo), setDoneFirst id l = some p →
      p.1.map Todo.id = l.map Todo.id := by
  intro l
  induction l with
  | nil => intro p h; simp [setDoneFirst] at h
  | cons t rest ih =>
    intro p h
    by_cases hc : t.id = id
    · simp only [setDoneFirst, hc, beq_self_eq_true, if_pos, Option.some.injEq] at h
      subst h
      simp [hc]
    · simp only [setDoneFirst, beq_iff_eq, hc, if_neg, not_false_iff, Option.map_eq_some'] at h
      obtain ⟨a, ha, rfl⟩ := h
      simp [ih a ha]

theorem deleteFirst_sublist (id : Int) :
    ∀ (l l' : List Todo), deleteFirst id l = some l' → l'.Sublist l := by
  intro l
  induction l with
  | nil => intro l' h; simp [deleteFirst] at h
  | cons t rest ih =>
    intro l' h
    by_cases hc : t.id = id
    · simp only [deleteFirst, hc, beq_self_eq_true, if_pos, Option.some.injEq] at h
      subst h
      exact List.Sublist.cons t (List.Sublist.refl rest)
    · simp only [deleteFirst, beq_iff_eq, hc, if_neg, not_false_iff, Option.map_eq_some'] at h
      obtain ⟨a, ha, rfl⟩ := h
      exact List.Sublist.cons₂ t (ih a ha)

theorem nextID_step (s : FState) (op : Op) : s.nextID ≤ (step s op).nextID := by
  cases op with
  | create t0 =>
    show s.nextID ≤ s.nextID + 1
    omega
  | update id upd =>
    cases h : updateFirst id upd s.todos <;> simp [step, updateTodoCore, h]
  | markDone id =>
    cases h : setDoneFirst id s.todos <;> simp [step, markAsDoneCore, h]
  | delete id =>
    cases h : deleteFirst id s.todos <;> simp [step, deleteTodoCore, h]

theorem inv_step (s : FState) (op : Op) (hs : Inv s) : Inv (step s op) := by
  cases op with
  | create t0 =>
    intro t ht
    simp only [step, createTodoCore, List.mem_append, List.mem_singleton] at ht
    show t.id < s.nextID + 1
    rcases ht with h | rfl
    · have := hs t h
      omega
    · show s.nextID < s.nextID + 1
      omega
  | update id upd =>
    cases h : updateFirst id upd s.todos with
    | none =>
      simpa [step, updateTodoCore, h] using hs
    | some l =>
      intro t ht
      simp only [step, updateTodoCore, h] at ht
      have hn : (step s (Op.update id upd)).nextID = s.nextID := by
        simp [step, updateTodoCore, h]
      rw [hn]
      have hm := updateFirst_map_id id upd s.todos l h
      have hmem : t.id ∈ s.todos.map Todo.id := by
        rw [← hm]
        exact List.mem_map_of_mem Todo.id ht
      obtain ⟨w, hw, hwid⟩ := List.mem_map.mp hmem
      have := hs w hw
      omega
  | markDone id =>
    cases h : setDoneFirst id s.todos with
    | none =>
      simpa [step, markAsDoneCore, h] using hs
    | some p =>
      intro t ht
      simp only [step, markAsDoneCore, h] at ht
      have hn : (step s (Op.markDone id)).nextID = s.nextID := by
        simp [step, markAsDoneCore, h]
      rw [hn]
      have hm := setDoneFirst_map_id id s.todos p h
      have hmem : t.id ∈ s.todos.map Todo.id := by
        rw [← hm]
        exact List.mem_map_of_mem Todo.id ht
      obtain ⟨w, hw, hwid⟩ := List.mem_map.mp hmem
      have := hs w hw
      omega
  | delete id =>
    cases h : deleteFirst id s.todos with
    | none =>
      simpa [step, deleteTodoCore, h] using hs
    | some l =>
      intro t ht
      simp only [step, deleteTodoCore, h] at ht
      have hn : (step s (Op.delete id)).nextID = s.nextID := by
        simp [step, deleteTodoCore, h]
      rw [hn]
      exact hs t ((deleteFirst_sublist id s.todos l h).subset ht)

theorem sorted_step (s : FState) (op : Op) (hs : Inv s) (hsort : SortedIds s) :
    SortedIds (step s op) := by
  cases op with
  | create t0 =>
    show ((s.todos ++ [{ t0 with id := s.nextID }]).map Todo.id).Pairwise (· < ·)
    rw [List.map_append]
    rw [List.pairwise_append]
    refine ⟨hsort, List.pairwise_singleton _ _, ?_⟩
    intro x hx y hy
    simp only [List.map_cons, List.map_nil, List.mem_singleton] at hy
    subst hy
    obtain ⟨w, hw, hwid⟩ := List.mem_map.mp hx
    have := hs w hw
    show x < s.nextID
    omega
  | update id upd =>
    cases h : updateFirst id upd s.todos with
    | none => simpa [step, updateTodoCore, h] using hsort
    | some l =>
      show ((step s (.update id upd)).todos.map Todo.id).Pairwise (· < ·)
      have : (step s (.update id upd)).todos = l := by simp [step, updateTodoCore, h]
      rw [this, updateFirst_map_id id upd s.todos l h]
      exact hsort
  | markDone id =>
    cases h : setDoneFirst id s.todos with
    | none => simpa [step, markAsDoneCore, h] using hsort
    | some p =>
      show ((step s (.markDone id)).todos.map Todo.id).Pairwise (· < ·)
      have : (step s (.markDone id)).todos = p.1 := by simp [step, markAsDoneCore, h]
      rw [this, setDoneFirst_map_id id s.todos p h]
      exact hsort
  | delete id =>
    cases h : deleteFirst id s.todos with
    | none => simpa [step, deleteTodoCore, h] using hsort
    | some l =>
      show ((step s (.delete id)).todos.map Todo.id).Pairwise (· < ·)
      have : (step s (.delete id)).todos = l := by simp [step, deleteTodoCore, h]
      rw [this]
      exact List.Pairwise.sublist ((deleteFirst_sublist id s.todos l h).map Todo.id) hsort

theorem run_inv_sorted (ops : List Op) :
    ∀ (s : FState), Inv s → SortedIds s → Inv (run s ops) ∧ SortedIds (run s ops) := by
  induction ops with
  | nil => intro s h1 h2; exact ⟨h1, h2⟩
  | cons op ops ih =>
    intro s h1 h2
    exact ih (step s op) (inv_step s op h1) (sorted_step s op h1 h2)

theorem le_assignedIds (ops : List Op) :
    ∀ (s : FState) (x : Int), x ∈ assignedIds s ops → s.nextID ≤ x := by
  induction ops with
  | nil => intro s x hx; simp [assignedIds] at hx
  | cons op ops ih =>
    intro s x hx
    cases op with
    | create t0 =>
      rcases List.mem_cons.mp hx with rfl | hx'
      · exact le_refl _
      · exact le_trans (nextID_step s (.create t0)) (ih (step s (.create t0)) x hx')
    | update id upd =>
      exact le_trans (nextID_step s (.update id upd)) (ih (step s (.update id upd)) x hx)
    | markDone id =>
      exact le_trans (nextID_step s (.markDone id)) (ih (step s (.markDone id)) x hx)
    | delete id =>
      exact le_trans (nextID_step s (.delete id)) (ih (step s (.delete id)) x hx)

theorem assignedIds_pairwise (ops : List Op) :
    ∀ (s : FState), (assignedIds s ops).Pairwise (· < ·) := by
  induction ops with
  | nil => intro s; simp [assignedIds]
  | cons op ops ih =>
    intro s
    cases op with
    | create t0 =>
      refine List.Pairwise.cons ?_ (ih (step s (.create t0)))
      intro x hx
      have h1 := le_assignedIds ops (step s (.create t0)) x hx
      have h2 : (step s (Op.create t0)).nextID = s.nextID + 1 := rfl
      omega
    | update id upd => exact ih (step s (.update id upd))
    | markDone id => exact ih (step s (.markDone id))
    | delete id => exact ih (step s (.delete id))

theorem le_foldl_bump (l : List Todo) : ∀ (n : Int), n ≤ l.foldl bump n := by
  induction l with
  | nil => intro n; simp
  | cons t rest ih =>
    intro n
    have h : n ≤ bump n t := by
      unfold bump
      split <;> omega
    exact le_trans h (ih (bump n t))

theorem lt_foldl_bump (l : List Todo) :
    ∀ (n : Int) (t : Todo), t ∈ l → t.id < l.foldl bump n := by
  induction l with
  | nil => intro n t ht; simp at ht
  | cons u rest ih =>
    intro n t ht
    rcases List.mem_cons.mp ht with rfl | ht'
    · have h1 : t.id < bump n t := by
        unfold bump
        split <;> omega
      calc t.id < bump n t := h1
        _ ≤ rest.foldl bump (bump n t) := le_foldl_bump rest (bump n t)
    · exact ih (bump n u) t ht'

theorem inv_loadState (l : List Todo) : Inv (loadState l) := by
  intro t ht
  exact lt_foldl_bump l 1 t ht

theorem updateFirst_eq_none (id : Int) (upd : Todo) :
    ∀ (l : List Todo), (∀ u ∈ l, u.id ≠ id) → updateFirst id upd l = none := by
  intro l
  induction l with
  | nil => intro _; rfl
  | cons t rest ih =>
    intro h
    have ht : t.id ≠ id := h t (List.mem_cons_self t rest)
    simp [updateFirst, ht, ih (fun v hv => h v (List.mem_cons_of_mem t hv))]

theorem setDoneFirst_eq_none (id : Int) :
    ∀ (l : List Todo), (∀ u ∈ l, u.id ≠ id) → setDoneFirst id l = none := by
  intro l
  induction l with
  | nil => intro _; rfl
  | cons t rest ih =>
    intro h
    have ht : t.id ≠ id := h t (List.mem_cons_self t rest)
    simp [setDoneFirst, ht, ih (fun v hv => h v (List.mem_cons_of_mem t hv))]

theorem deleteFirst_eq_none (id : Int) :
    ∀ (l : List Todo), (∀ u ∈ l, u.id ≠ id) → deleteFirst id l = none := by
  intro l
  induction l with
  | nil => intro _; rfl
  | cons t rest ih =>
    intro h
    have ht : t.id ≠ id := h t (List.mem_cons_self t rest)
    simp [deleteFirst, ht, ih (fun v hv => h v (List.mem_cons_of_mem t hv))]

theorem updateFirst_append (id : Int) (upd : Todo) (t : Todo) (l2 : List Todo) (ht : t.id = id) :
    ∀ (l1 : List Todo), (∀ u ∈ l1, u.id ≠ id) →
      updateFirst id upd (l1 ++ t :: l2) = some (l1 ++ { upd with id := id } :: l2) := by
  intro l1
  induction l1 with
  | nil =>
    intro _
    simp [updateFirst, ht]
  | cons u rest ih =>
    intro h
    have hu : u.id ≠ id := h u (List.mem_cons_self u rest)
    simp [updateFirst, hu, ih (fun v hv => h v (List.mem_cons_of_mem u hv))]

theorem setDoneFirst_append (id : Int) (t : Todo) (l2 : List Todo) (ht : t.id = id) :
    ∀ (l1 : List Todo), (∀ u ∈ l1, u.id ≠ id) →
      setDoneFirst id (l1 ++ t :: l2) =
        some (l1 ++ { t with done := true } :: l2, { t with done := true }) := by
  intro l1
  induction l1 with
  | nil =>
    intro _
    simp [setDoneFirst, ht]
  | cons u rest ih =>
    intro h
    have hu : u.id ≠ id := h u (List.mem_cons_self u rest)
    simp [setDoneFirst, hu, ih (fun v hv => h v (List.mem_cons_of_mem u hv))]

theorem getTodoCore_create (s : FState) (t0 : Todo) (hinv : Inv s) :
    getTodoCore (createTodoCore s t0).1 ((createTodoCore s t0).2).id =
      ⟨200, .jobj (createTodoCore s t0).2⟩ := by
  show getTodoCore ⟨s.todos ++ [{ t0 with id := s.nextID }], s.nextID + 1⟩ s.nextID = _
  unfold getTodoCore
  rw [List.find?_append]
  have h1 : s.todos.find? (fun u => u.id == s.nextID) = none := by
    rw [List.find?_eq_none]
    intro x hx
    have := hinv x hx
    simp only [beq_iff_eq]
    omega
  rw [h1]
  simp
  rfl

end FileBackend

/-- Pointwise-fixed maps act as the identity. -/
theorem map_id_of_fixed {f : Todo → Todo} :
    ∀ (l : List Todo), (∀ u ∈ l, f u = u) → l.map f = l := by
  intro l
  induction l with
  | nil => intro _; rfl
  | cons u rest ih =>
    intro h
    simp [h u (List.mem_cons_self u rest), ih (fun v hv => h v (List.mem_cons_of_mem u hv))]

namespace PgBackend

theorem queryRowById_eq_none (rows : List Todo) (id : Int) (h : ∀ u ∈ rows, u.id ≠ id) :
    queryRowById rows id = none := by
  unfold queryRowById
  rw [List.find?_eq_none]
  intro x hx
  simp only [beq_iff_eq]
  exact h x hx

theorem queryRowById_append (id : Int) (t : Todo) (l1 l2 : List Todo)
    (h1 : ∀ u ∈ l1, u.id ≠ id) (ht : t.id = id) :
    queryRowById (l1 ++ t :: l2) id = some t := by
  unfold queryRowById
  rw [List.find?_append]
  have e1 : l1.find? (fun u => u.id == id) = none := by
    rw [List.find?_eq_none]
    intro x hx
    simp only [beq_iff_eq]
    exact h1 x hx
  rw [e1]
  simp [List.find?_cons, ht]

theorem execSetDone_fixed (rows : List Todo) (id : Int) (h : ∀ u ∈ rows, u.id ≠ id) :
    execSetDone rows id = rows := by
  apply map_id_of_fixed
  intro u hu
  simp [h u hu]

theorem execSetDone_append (id : Int) (t : Todo) (l1 l2 : List Todo)
    (h1 : ∀ u ∈ l1, u.id ≠ id) (h2 : ∀ u ∈ l2, u.id ≠ id) (ht : t.id = id) :
    execSetDone (l1 ++ t :: l2) id = l1 ++ { t with done := true } :: l2 := by
  unfold execSetDone
  rw [List.map_append, List.map_cons]
  rw [map_id_of_fixed l1 (fun u hu => by simp [h1 u hu])]
  rw [map_id_of_fixed l2 (fun u hu => by simp [h2 u hu])]
  simp [ht]

end PgBackend

theorem selectAll_pairwise_le (rows : List Todo) :
    (PgBackend.selectAllOrderById rows).Pairwise (fun a b => a.id ≤ b.id) :=
  List.sorted_insertionSort (fun a b : Todo => a.id ≤ b.id) rows

theorem selectAll_pairwise_lt (rows : List Todo) (h : (rows.map Todo.id).Nodup) :
    ((PgBackend.selectAllOrderById rows).map Todo.id).Pairwise (· < ·) := by
  have hperm : (PgBackend.selectAllOrderById rows).Perm rows :=
    List.perm_insertionSort (fun a b : Todo => a.id ≤ b.id) rows
  have hnd : ((PgBackend.selectAllOrderById rows).map Todo.id).Nodup :=
    ((hperm.map Todo.id).nodup_iff).mpr h
  have hle : ((PgBackend.selectAllOrderById rows).map Todo.id).Pairwise (· ≤ ·) :=
    List.pairwise_map.mpr (selectAll_pairwise_le rows)
  exact List.Pairwise.imp (fun h' => lt_of_le_of_ne h'.1 h'.2) (hle.and hnd)

theorem goTrimPre_append (p r : String) : goTrimPre (p ++ r) p = r := by
  unfold goTrimPre
  simp only [String.data_append]
  rw [if_pos (List.isPrefixOf_iff_prefix.mpr (List.prefix_append p.data r.data))]
  show (⟨(p.data ++ r.data).drop p.data.length⟩ : String) = r
  rw [List.drop_left]

theorem goHasPre_append (p r : String) : goHasPre (p ++ r) p = true := by
  unfold goHasPre
  exact List.isPrefixOf_iff_prefix.mpr (List.prefix_append p.data r.data)

theorem todosSlash_append_ne (idStr : String) :
    (("/todos/" ++ idStr : String) == "/todos") = false := by
  apply beq_eq_false_iff_ne.mpr
  intro h
  have h2 := congrArg (fun s : String => s.data.length) h
  simp at h2

theorem file_router_patch (s : FileBackend.FState) (b : Option Todo) (p : String)
    (h : goHasSuf p "/done" = true) :
    FileBackend.router s "PATCH" p b = FileBackend.markAsDone s p := by
  simp [FileBackend.router, h]

theorem pg_router_patch (s : PgBackend.DbState) (b : Option Todo) (p : String)
    (h : goHasSuf p "/done" = true) :
    PgBackend.router s "PATCH" p b = PgBackend.markAsDone s p := by
  simp [PgBackend.router, h]

theorem file_router_404 (s : FileBackend.FState) (b : Option Todo) (m p : String)
    (h : matchesSomeCase m p = false) :
    FileBackend.router s m p b = (s, ⟨404, .empty⟩) := by
  simp only [matchesSomeCase, Bool.or_eq_false_iff] at h
  obtain ⟨⟨⟨⟨⟨h1, h2⟩, h3⟩, h4⟩, h5⟩, h6⟩ := h
  simp [FileBackend.router, h1, h2, h3, h4, h5, h6]

theorem pg_router_404 (s : PgBackend.DbState) (b : Option Todo) (m p : String)
    (h : matchesSomeCase m p = false) :
    PgBackend.router s m p b = (s, ⟨404, .empty⟩) := by
  simp only [matchesSomeCase, Bool.or_eq_false_iff] at h
  obtain ⟨⟨⟨⟨⟨h1, h2⟩, h3⟩, h4⟩, h5⟩, h6⟩ := h
  simp [PgBackend.router, h1, h2, h3, h4, h5, h6]

theorem file_router_get_400 (s : FileBackend.FState) (b : Option Todo) (idStr : String)
    (h : goAtoi idStr = none) :
    (FileBackend.router s "GET" ("/todos/" ++ idStr) b).2 = ⟨400, .errText "Invalid ID"⟩ := by
  have hne := todosSlash_append_ne idStr
  have hpre := goHasPre_append "/todos/" idStr
  simp [FileBackend.router, hne, hpre, FileBackend.getTodo, goTrimPre_append, h]

theorem pg_router_get_400 (s : PgBackend.DbState) (b : Option Todo) (idStr : String)
    (h : goAtoi idStr = none) :
    (PgBackend.router s "GET" ("/todos/" ++ idStr) b).2 = ⟨400, .errText "Invalid ID"⟩ := by
  have hne := todosSlash_append_ne idStr
  have hpre := goHasPre_append "/todos/" idStr
  simp [PgBackend.router, hne, hpre, PgBackend.getTodoById, goTrimPre_append, h]

theorem goTrimSuf_append (x suf : String) : goTrimSuf (x ++ suf) suf = x := by
  unfold goTrimSuf
  simp only [String.data_append]
  rw [if_pos (List.isSuffixOf_iff_suffix.mpr (List.suffix_append x.data suf.data))]
  show (⟨(x.data ++ suf.data).take ((x.data ++ suf.data).length - suf.data.length)⟩ : String) = x
  rw [List.take_left' (by simp)]

theorem goHasSuf_append (x suf : String) : goHasSuf (x ++ suf) suf = true := by
  unfold goHasSuf
  simp only [String.data_append]
  exact List.isSuffixOf_iff_suffix.mpr (List.suffix_append x.data suf.data)

theorem ne_todos_of_hasPre (p : String) (h : goHasPre p "/todos/" = true) :
    (p == "/todos") = false := by
  apply beq_eq_false_iff_ne.mpr
  intro heq
  subst heq
  exact absurd h (by decide)

theorem file_router_list (s : FileBackend.FState) (b : Option Todo) :
    FileBackend.router s "GET" "/todos" b = (s, FileBackend.getTodos s) := rfl

theorem file_router_create (s : FileBackend.FState) (b : Option Todo) :
    FileBackend.router s "POST" "/todos" b = FileBackend.createTodo s b := rfl

theorem file_router_get_pre (s : FileBackend.FState) (b : Option Todo) (p : String)
    (h : goHasPre p "/todos/" = true) :
    FileBackend.router s "GET" p b = (s, FileBackend.getTodo s p) := by
  have hne := ne_todos_of_hasPre p h
  simp [FileBackend.router, hne, h]

theorem file_router_put_pre (s : FileBackend.FState) (b : Option Todo) (p : String)
    (h : goHasPre p "/todos/" = true) :
    FileBackend.router s "PUT" p b = FileBackend.updateTodo s p b := by
  simp [FileBackend.router, h]

theorem file_router_delete_pre (s : FileBackend.FState) (b : Option Todo) (p : String)
    (h : goHasPre p "/todos/" = true) :
    FileBackend.router s "DELETE" p b = FileBackend.deleteTodo s p := by
  simp [FileBackend.router, h]

theorem file_router_put_400 (s : FileBackend.FState) (b : Option Todo) (idStr : String)
    (h : goAtoi idStr = none) :
    (FileBackend.router s "PUT" ("/todos/" ++ idStr) b).2 = ⟨400, .errText "Invalid ID"⟩ := by
  have hpre := goHasPre_append "/todos/" idStr
  simp [FileBackend.router, hpre, FileBackend.updateTodo, goTrimPre_append, h]

theorem file_router_delete_400 (s : FileBackend.FState) (b : Option Todo) (idStr : String)
    (h : goAtoi idStr = none) :
    (FileBackend.router s "DELETE" ("/todos/" ++ idStr) b).2 = ⟨400, .errText "Invalid ID"⟩ := by
  have hpre := goHasPre_append "/todos/" idStr
  simp [FileBackend.router, hpre, FileBackend.deleteTodo, goTrimPre_append, h]

theorem file_router_patch_400 (s : FileBackend.FState) (b : Option Todo) (idStr : String)
    (h : goAtoi idStr = none) :
    (FileBackend.router s "PATCH" ("/todos/" ++ (idStr ++ "/done")) b).2 =
      ⟨400, .errText "Invalid ID"⟩ := by
  have hsuf : goHasSuf ("/todos/" ++ (idStr ++ "/done")) "/done" = true := by
    rw [← String.append_assoc]
    exact goHasSuf_append ("/todos/" ++ idStr) "/done"
  rw [file_router_patch s b _ hsuf]
  simp [FileBackend.markAsDone, goTrimPre_append, goTrimSuf_append, h]

theorem pg_router_list (s : PgBackend.DbState) (b : Option Todo) :
    PgBackend.router s "GET" "/todos" b = (s, PgBackend.getTodos s) := rfl

theorem pg_router_create (s : PgBackend.DbState) (b : Option Todo) :
    PgBackend.router s "POST" "/todos" b = PgBackend.createTodo s b := rfl

theorem pg_router_get_pre (s : PgBackend.DbState) (b : Option Todo) (p : String)
    (h : goHasPre p "/todos/" = true) :
    PgBackend.router s "GET" p b = (s, PgBackend.getTodoById s p) := by
  have hne := ne_todos_of_hasPre p h
  simp [PgBackend.router, hne, h]

theorem pg_router_put_pre (s : PgBackend.DbState) (b : Option Todo) (p : String)
    (h : goHasPre p "/todos/" = true) :
    PgBackend.router s "PUT" p b = PgBackend.updateTodo s p b := by
  simp [PgBackend.router, h]

theorem pg_router_delete_pre (s : PgBackend.DbState) (b : Option Todo) (p : String)
    (h : goHasPre p "/todos/" = true) :
    PgBackend.router s "DELETE" p b = PgBackend.deleteTodo s p := by
  simp [PgBackend.router, h]

theorem pg_router_put_400 (s : PgBackend.DbState) (b : Option Todo) (idStr : String)
    (h : goAtoi idStr = none) :
    (PgBackend.router s "PUT" ("/todos/" ++ idStr) b).2 = ⟨400, .errText "Invalid ID"⟩ := by
  have hpre := goHasPre_append "/todos/" idStr
  simp [PgBackend.router, hpre, PgBackend.updateTodo, goTrimPre_append, h]

theorem pg_router_delete_400 (s : PgBackend.DbState) (b : Option Todo) (idStr : String)
    (h : goAtoi idStr = none) :
    (PgBackend.router s "DELETE" ("/todos/" ++ idStr) b).2 = ⟨400, .errText "Invalid ID"⟩ := by
  have hpre := goHasPre_append "/todos/" idStr
  simp [PgBackend.router, hpre, PgBackend.deleteTodo, goTrimPre_append, h]

theorem pg_router_patch_400 (s : PgBackend.DbState) (b : Option Todo) (idStr : String)
    (h : goAtoi idStr = none) :
    (PgBackend.router s "PATCH" ("/todos/" ++ (idStr ++ "/done")) b).2 =
      ⟨400, .errText "Invalid ID"⟩ := by
  have hsuf : goHasSuf ("/todos/" ++ (idStr ++ "/done")) "/done" = true := by
    rw [← String.append_assoc]
    exact goHasSuf_append ("/todos/" ++ idStr) "/done"
  rw [pg_router_patch s b _ hsuf]
  simp [PgBackend.markAsDone, goTrimPre_append, goTrimSuf_append, h]

/-- C1 counterexample: in the relational variant, deleting id 1 from an empty
table answers 204 (success), not the 404 the claim requires of both variants. -/
theorem c1_counterexample :
    (PgBackend.deleteTodo ⟨[], 1⟩ "/todos/1").2.status = 204 ∧
    ¬((PgBackend.deleteTodo ⟨[], 1⟩ "/todos/1").2.status = 404) := by
  decide

/-- C1 (amended): the file-backed variant answers 404 when no record carries
the requested id; the relational variant answers 204 unconditionally after a
successful id parse, because it never checks how many rows the DELETE hit. -/
theorem c1_amended :
    (∀ (s : FileBackend.FState) (id : Int), (∀ t ∈ s.todos, t.id ≠ id) →
      FileBackend.deleteTodoCore s id = (s, ⟨404, .empty⟩)) ∧
    (∀ (db : PgBackend.DbState) (id : Int),
      (PgBackend.deleteTodoCore db id).2 = ⟨204, .empty⟩) := by
  constructor
  · intro s id h
    simp [FileBackend.deleteTodoCore, FileBackend.deleteFirst_eq_none id s.todos h]
  · intro db id
    rfl

/-- C1 witness: the amended theorem applied at a concrete absent id. -/
theorem c1_witness :
    FileBackend.deleteTodoCore ⟨[⟨1, "a", false⟩], 2⟩ 7 =
      (⟨[⟨1, "a", false⟩], 2⟩, ⟨404, .empty⟩) :=
  c1_amended.1 ⟨[⟨1, "a", false⟩], 2⟩ 7 (by decide)

/-- C2 counterexample: in the relational variant, updating absent id 1 on an
empty table answers 200 with the echoed record, not the 404 the claim requires. -/
theorem c2_counterexample :
    (PgBackend.updateTodo ⟨[], 1⟩ "/todos/1" (some ⟨0, "x", false⟩)).2.status = 200 ∧
    ¬((PgBackend.updateTodo ⟨[], 1⟩ "/todos/1" (some ⟨0, "x", false⟩)).2.status = 404) := by
  decide

/-- C2 (amended): the file-backed variant answers 404 for an absent id and,
for a present id, replaces title and done of the first matching record while
preserving the id; the relational variant always answers 200 with the body
echoed under the requested id, whether or not a record exists. -/
theorem c2_amended :
    (∀ (s : FileBackend.FState) (id : Int) (upd : Todo), (∀ t ∈ s.todos, t.id ≠ id) →
      FileBackend.updateTodoCore s id upd = (s, ⟨404, .empty⟩)) ∧
    (∀ (s : FileBackend.FState) (id : Int) (upd : Todo) (l1 l2 : List Todo) (t : Todo),
      s.todos = l1 ++ t :: l2 → (∀ u ∈ l1, u.id ≠ id) → t.id = id →
      FileBackend.updateTodoCore s id upd =
        (⟨l1 ++ { upd with id := id } :: l2, s.nextID⟩, ⟨200, .jobj { upd with id := id }⟩)) ∧
    (∀ (db : PgBackend.DbState) (id : Int) (upd : Todo),
      (PgBackend.updateTodoCore db id upd).2 = ⟨200, .jobj { upd with id := id }⟩) := by
  refine ⟨?_, ?_, ?_⟩
  · intro s id upd h
    simp [FileBackend.updateTodoCore, FileBackend.updateFirst_eq_none id upd s.todos h]
  · intro s id upd l1 l2 t hs h1 ht
    simp [FileBackend.updateTodoCore, hs, FileBackend.updateFirst_append id upd t l2 ht l1 h1]
  · intro db id upd
    rfl

/-- C2 witness: the amended theorem's present-id clause at a concrete state. -/
theorem c2_witness :
    FileBackend.updateTodoCore ⟨[⟨1, "a", false⟩, ⟨2, "b", false⟩], 3⟩ 2 ⟨0, "c", true⟩ =
      (⟨[⟨1, "a", false⟩, ⟨2, "c", true⟩], 3⟩, ⟨200, .jobj ⟨2, "c", true⟩⟩) :=
  c2_amended.2.1 ⟨[⟨1, "a", false⟩, ⟨2, "b", false⟩], 3⟩ 2 ⟨0, "c", true⟩
    [⟨1, "a", false⟩] [] ⟨2, "b", false⟩ rfl (by decide) rfl

/-- C3: in the file-backed variant, the ids handed out by creates are strictly
increasing over any operation sequence from any starting state, the counter
starts at 1, the counter invariant (nextID above every stored id) is preserved
by every operation, and it holds initially. -/
theorem c3_monotonic_ids :
    (∀ (s : FileBackend.FState) (ops : List FileBackend.Op),
      (FileBackend.assignedIds s ops).Pairwise (· < ·)) ∧
    FileBackend.initState.nextID = 1 ∧
    (∀ (s : FileBackend.FState) (op : FileBackend.Op),
      FileBackend.Inv s → FileBackend.Inv (FileBackend.step s op)) ∧
    FileBackend.Inv FileBackend.initState := by
  refine ⟨?_, rfl, ?_, ?_⟩
  · intro s ops
    exact FileBackend.assignedIds_pairwise ops s
  · intro s op h
    exact FileBackend.inv_step s op h
  · intro t ht
    simp [FileBackend.initState] at ht

/-- C3 witness: invariant preservation applied at a concrete state and op. -/
theorem c3_witness :
    FileBackend.Inv ⟨[⟨1, "a", false⟩], 2⟩ ∧
    FileBackend.Inv (FileBackend.step ⟨[⟨1, "a", false⟩], 2⟩ (.create ⟨0, "b", true⟩)) :=
  ⟨by decide, c3_monotonic_ids.2.2.1 ⟨[⟨1, "a", false⟩], 2⟩ (.create ⟨0, "b", true⟩) (by decide)⟩

/-- C4 counterexample: PATCH `/foo/done` is no table path, yet both routers
hand it to the markAsDone handler, which answers 400, not the claimed 404. -/
theorem c4_counterexample :
    (FileBackend.router FileBackend.initState "PATCH" "/foo/done" none).2 =
      ⟨400, .errText "Invalid ID"⟩ ∧
    (PgBackend.router ⟨[], 1⟩ "PATCH" "/foo/done" none).2 = ⟨400, .errText "Invalid ID"⟩ ∧
    ¬((FileBackend.router FileBackend.initState "PATCH" "/foo/done" none).2.status = 404) := by
  decide

/-- C4 (amended): the router implements the dispatch table with one deviation:
the PATCH case keys on the `/done` suffix alone, without the `/todos/` prefix,
so any PATCH whose path ends in `/done` reaches the markAsDone handler.
Otherwise GET/POST `/todos` reach list/create, GET/PUT/DELETE on any
`/todos/`-prefixed path reach the get/update/delete handlers, a non-integer
id segment answers 400 for GET, PUT, DELETE and PATCH alike, and a request
matching no switch case answers 404 — all in both variants. -/
theorem c4_amended :
    (∀ (s : FileBackend.FState) (b : Option Todo),
      FileBackend.router s "GET" "/todos" b = (s, FileBackend.getTodos s)) ∧
    (∀ (s : FileBackend.FState) (b : Option Todo),
      FileBackend.router s "POST" "/todos" b = FileBackend.createTodo s b) ∧
    (∀ (s : FileBackend.FState) (b : Option Todo) (p : String), goHasPre p "/todos/" = true →
      FileBackend.router s "GET" p b = (s, FileBackend.getTodo s p)) ∧
    (∀ (s : FileBackend.FState) (b : Option Todo) (p : String), goHasPre p "/todos/" = true →
      FileBackend.router s "PUT" p b = FileBackend.updateTodo s p b) ∧
    (∀ (s : FileBackend.FState) (b : Option Todo) (p : String), goHasPre p "/todos/" = true →
      FileBackend.router s "DELETE" p b = FileBackend.deleteTodo s p) ∧
    (∀ (s : FileBackend.FState) (b : Option Todo) (p : String), goHasSuf p "/done" = true →
      FileBackend.router s "PATCH" p b = FileBackend.markAsDone s p) ∧
    (∀ (s : FileBackend.FState) (b : Option Todo) (m p : String), matchesSomeCase m p = false →
      FileBackend.router s m p b = (s, ⟨404, .empty⟩)) ∧
    (∀ (s : FileBackend.FState) (b : Option Todo) (idStr : String), goAtoi idStr = none →
      (FileBackend.router s "GET" ("/todos/" ++ idStr) b).2 = ⟨400, .errText "Invalid ID"⟩) ∧
    (∀ (s : FileBackend.FState) (b : Option Todo) (idStr : String), goAtoi idStr = none →
      (FileBackend.router s "PUT" ("/todos/" ++ idStr) b).2 = ⟨400, .errText "Invalid ID"⟩) ∧
    (∀ (s : FileBackend.FState) (b : Option Todo) (idStr : String), goAtoi idStr = none →
      (FileBackend.router s "DELETE" ("/todos/" ++ idStr) b).2 = ⟨400, .errText "Invalid ID"⟩) ∧
    (∀ (s : FileBackend.FState) (b : Option Todo) (idStr : String), goAtoi idStr = none →
      (FileBackend.router s "PATCH" ("/todos/" ++ (idStr ++ "/done")) b).2 =
        ⟨400, .errText "Invalid ID"⟩) ∧
    (∀ (s : PgBackend.DbState) (b : Option Todo),
      PgBackend.router s "GET" "/todos" b = (s, PgBackend.getTodos s)) ∧
    (∀ (s : PgBackend.DbState) (b : Option Todo),
      PgBackend.router s "POST" "/todos" b = PgBackend.createTodo s b) ∧
    (∀ (s : PgBackend.DbState) (b : Option Todo) (p : String), goHasPre p "/todos/" = true →
      PgBackend.router s "GET" p b = (s, PgBackend.getTodoById s p)) ∧
    (∀ (s : PgBackend.DbState) (b : Option Todo) (p : String), goHasPre p "/todos/" = true →
      PgBackend.router s "PUT" p b = PgBackend.updateTodo s p b) ∧
    (∀ (s : PgBackend.DbState) (b : Option Todo) (p : String), goHasPre p "/todos/" = true →
      PgBackend.router s "DELETE" p b = PgBackend.deleteTodo s p) ∧
    (∀ (s : PgBackend.DbState) (b : Option Todo) (p : String), goHasSuf p "/done" = true →
      PgBackend.router s "PATCH" p b = PgBackend.markAsDone s p) ∧
    (∀ (s : PgBackend.DbState) (b : Option Todo) (m p : String), matchesSomeCase m p = false →
      PgBackend.router s m p b = (s, ⟨404, .empty⟩)) ∧
    (∀ (s : PgBackend.DbState) (b : Option Todo) (idStr : String), goAtoi idStr = none →
      (PgBackend.router s "GET" ("/todos/" ++ idStr) b).2 = ⟨400, .errText "Invalid ID"⟩) ∧
    (∀ (s : PgBackend.DbState) (b : Option Todo) (idStr : String), goAtoi idStr = none →
      (PgBackend.router s "PUT" ("/todos/" ++ idStr) b).2 = ⟨400, .errText "Invalid ID"⟩) ∧
    (∀ (s : PgBackend.DbState) (b : Option Todo) (idStr : String), goAtoi idStr = none →
      (PgBackend.router s "DELETE" ("/todos/" ++ idStr) b).2 = ⟨400, .errText "Invalid ID"⟩) ∧
    (∀ (s : PgBackend.DbState) (b : Option Todo) (idStr : String), goAtoi idStr = none →
      (PgBackend.router s "PATCH" ("/todos/" ++ (idStr ++ "/done")) b).2 =
        ⟨400, .errText "Invalid ID"⟩) :=
  ⟨file_router_list, file_router_create, file_router_get_pre, file_router_put_pre,
   file_router_delete_pre, file_router_patch, file_router_404, file_router_get_400,
   file_router_put_400, file_router_delete_400, file_router_patch_400,
   pg_router_list, pg_router_create, pg_router_get_pre, pg_router_put_pre,
   pg_router_delete_pre, pg_router_patch, pg_router_404, pg_router_get_400,
   pg_router_put_400, pg_router_delete_400, pg_router_patch_400⟩

/-- C4 witness: the amended theorem's PATCH clause at a concrete path. -/
theorem c4_witness :
    goHasSuf "/abc/done" "/done" = true ∧
    FileBackend.router FileBackend.initState "PATCH" "/abc/done" none =
      FileBackend.markAsDone FileBackend.initState "/abc/done" :=
  ⟨by decide, c4_amended.2.2.2.2.2.1 FileBackend.initState none "/abc/done" (by decide)⟩

/-- C5 counterexample: on an empty table the relational getTodos encodes the
nil slice, so the body is JSON `null`, not the empty array the claim requires. -/
theorem c5_counterexample :
    PgBackend.getTodos ⟨[], 1⟩ = ⟨200, .jnull⟩ ∧
    ¬(PgBackend.getTodos ⟨[], 1⟩ = ⟨200, .jarr []⟩) := by
  decide

/-- C5 (amended): the file-backed variant always answers 200 with a JSON array
of the dataset (empty array for the empty dataset); the relational variant
answers 200 with JSON `null` on an empty table and a JSON array otherwise. -/
theorem c5_amended :
    (∀ s : FileBackend.FState, FileBackend.getTodos s = ⟨200, .jarr s.todos⟩) ∧
    (∀ db : PgBackend.DbState, db.rows = [] → PgBackend.getTodos db = ⟨200, .jnull⟩) ∧
    (∀ db : PgBackend.DbState, db.rows ≠ [] →
      PgBackend.getTodos db = ⟨200, .jarr (PgBackend.selectAllOrderById db.rows)⟩) := by
  refine ⟨fun s => rfl, ?_, ?_⟩
  · intro db h
    simp [PgBackend.getTodos, PgBackend.selectAllOrderById, h]
  · intro db h
    have h2 : PgBackend.selectAllOrderById db.rows ≠ [] := by
      intro hcon
      have hperm : (PgBackend.selectAllOrderById db.rows).Perm db.rows :=
        List.perm_insertionSort (fun a b : Todo => a.id ≤ b.id) db.rows
      have hlen := hperm.length_eq
      rw [hcon] at hlen
      exact h (List.length_eq_zero.mp hlen.symm)
    have hE : (PgBackend.selectAllOrderById db.rows).isEmpty = false := by
      cases hsel : PgBackend.selectAllOrderById db.rows with
      | nil => exact absurd hsel h2
      | cons a l => rfl
    simp [PgBackend.getTodos, hE]

/-- C5 witness: the amended theorem's two relational clauses at concrete states. -/
theorem c5_witness :
    PgBackend.getTodos ⟨[], 5⟩ = ⟨200, .jnull⟩ ∧
    PgBackend.getTodos ⟨[⟨1, "a", false⟩], 2⟩ =
      ⟨200, .jarr (PgBackend.selectAllOrderById [⟨1, "a", false⟩])⟩ :=
  ⟨c5_amended.2.1 ⟨[], 5⟩ rfl, c5_amended.2.2 ⟨[⟨1, "a", false⟩], 2⟩ (by decide)⟩

/-- C6: markDone sets exactly the matching record's done flag to true, keeps
its title and every other record unchanged, and returns the refreshed record;
an absent id answers 404 — in both variants. -/
theorem c6_markdone :
    (∀ (s : FileBackend.FState) (id : Int) (l1 l2 : List Todo) (t : Todo),
      s.todos = l1 ++ t :: l2 → (∀ u ∈ l1, u.id ≠ id) → t.id = id →
      FileBackend.markAsDoneCore s id =
        (⟨l1 ++ { t with done := true } :: l2, s.nextID⟩, ⟨200, .jobj { t with done := true }⟩)) ∧
    (∀ (s : FileBackend.FState) (id : Int), (∀ u ∈ s.todos, u.id ≠ id) →
      FileBackend.markAsDoneCore s id = (s, ⟨404, .empty⟩)) ∧
    (∀ (db : PgBackend.DbState) (id : Int) (l1 l2 : List Todo) (t : Todo),
      db.rows = l1 ++ t :: l2 → (∀ u ∈ l1, u.id ≠ id) → (∀ u ∈ l2, u.id ≠ id) → t.id = id →
      PgBackend.markAsDoneCore db id =
        (⟨l1 ++ { t with done := true } :: l2, db.serial⟩, ⟨200, .jobj { t with done := true }⟩)) ∧
    (∀ (db : PgBackend.DbState) (id : Int), (∀ u ∈ db.rows, u.id ≠ id) →
      PgBackend.markAsDoneCore db id = (db, ⟨404, .empty⟩)) := by
  refine ⟨?_, ?_, ?_, ?_⟩
  · intro s id l1 l2 t hs h1 ht
    simp [FileBackend.markAsDoneCore, hs, FileBackend.setDoneFirst_append id t l2 ht l1 h1]
  · intro s id h
    simp [FileBackend.markAsDoneCore, FileBackend.setDoneFirst_eq_none id s.todos h]
  · intro db id l1 l2 t hd h1 h2 ht
    have e1 := PgBackend.execSetDone_append id t l1 l2 h1 h2 ht
    have e2 : PgBackend.queryRowById (l1 ++ { t with done := true } :: l2) id =
        some { t with done := true } :=
      PgBackend.queryRowById_append id { t with done := true } l1 l2 h1 ht
    simp [PgBackend.markAsDoneCore, hd, e1, e2]
  · intro db id h
    have e1 := PgBackend.execSetDone_fixed db.rows id h
    have e2 := PgBackend.queryRowById_eq_none db.rows id h
    simp [PgBackend.markAsDoneCore, e1, e2]

/-- C6 witness: the file-backed present-id clause at a concrete state. -/
theorem c6_witness :
    FileBackend.markAsDoneCore ⟨[⟨1, "milk", false⟩, ⟨2, "eggs", false⟩], 3⟩ 1 =
      (⟨[⟨1, "milk", true⟩, ⟨2, "eggs", false⟩], 3⟩, ⟨200, .jobj ⟨1, "milk", true⟩⟩) :=
  c6_markdone.1 ⟨[⟨1, "milk", false⟩, ⟨2, "eggs", false⟩], 3⟩ 1 [] [⟨2, "eggs", false⟩]
    ⟨1, "milk", false⟩ rfl (by decide) rfl

/-- C7: after loading a file, the next created record's id is strictly above
every id present in the file. -/
theorem c7_load_counter :
    ∀ (l : List Todo) (t0 : Todo) (t : Todo), t ∈ l →
      t.id < ((FileBackend.createTodoCore (FileBackend.loadState l) t0).2).id := by
  intro l t0 t ht
  show t.id < FileBackend.loadNextID l
  exact FileBackend.lt_foldl_bump l 1 t ht

/-- C7 witness: loading a file with max id 5, the created id exceeds 5. -/
theorem c7_witness :
    (⟨5, "a", false⟩ : Todo).id <
      ((FileBackend.createTodoCore
        (FileBackend.loadState [⟨5, "a", false⟩, ⟨3, "b", true⟩]) ⟨0, "c", false⟩).2).id :=
  c7_load_counter [⟨5, "a", false⟩, ⟨3, "b", true⟩] ⟨0, "c", false⟩ ⟨5, "a", false⟩ (by decide)

/-- C8 counterexample: a state loaded from a file whose records are stored out
of order is served in file order, which is not ascending by id. -/
theorem c8_counterexample :
    FileBackend.getTodos (FileBackend.loadState [⟨2, "b", false⟩, ⟨1, "a", false⟩]) =
      ⟨200, .jarr [⟨2, "b", false⟩, ⟨1, "a", false⟩]⟩ ∧
    ¬(((FileBackend.loadState [⟨2, "b", false⟩, ⟨1, "a", false⟩]).todos.map
        Todo.id).Pairwise (· < ·)) := by
  constructor
  · rfl
  · decide

/-- C8 (amended): the file-backed list answers the dataset in stored order,
which is strictly ascending by id for every state reachable from the empty
initial state via the four operations (but not for arbitrary loaded files);
the relational list is always weakly ascending by id, and strictly so when
the ids are pairwise distinct, as the primary key guarantees. -/
theorem c8_amended :
    (∀ ops : List FileBackend.Op,
      FileBackend.getTodos (FileBackend.run FileBackend.initState ops) =
        ⟨200, .jarr (FileBackend.run FileBackend.initState ops).todos⟩ ∧
      (((FileBackend.run FileBackend.initState ops).todos.map Todo.id).Pairwise (· < ·))) ∧
    (∀ rows : List Todo, (PgBackend.selectAllOrderById rows).Pairwise (fun a b => a.id ≤ b.id)) ∧
    (∀ rows : List Todo, (rows.map Todo.id).Nodup →
      ((PgBackend.selectAllOrderById rows).map Todo.id).Pairwise (· < ·)) := by
  refine ⟨?_, selectAll_pairwise_le, selectAll_pairwise_lt⟩
  intro ops
  refine ⟨rfl, ?_⟩
  refine (FileBackend.run_inv_sorted ops FileBackend.initState ?_ ?_).2
  · intro t ht
    simp [FileBackend.initState] at ht
  · simp [FileBackend.SortedIds, FileBackend.initState]

/-- C8 witness: the strict relational clause at a concrete nodup table. -/
theorem c8_witness :
    (([⟨2, "b", false⟩, ⟨1, "a", false⟩].map Todo.id).Nodup) ∧
    ((PgBackend.selectAllOrderById [⟨2, "b", false⟩, ⟨1, "a", false⟩]).map
      Todo.id).Pairwise (· < ·) :=
  ⟨by decide, c8_amended.2.2 [⟨2, "b", false⟩, ⟨1, "a", false⟩] (by decide)⟩

/-- C9: under the counter invariant, create followed by get of the returned id
yields exactly the created record. -/
theorem c9_roundtrip :
    ∀ (s : FileBackend.FState) (t0 : Todo), FileBackend.Inv s →
      FileBackend.getTodoCore (FileBackend.createTodoCore s t0).1
          ((FileBackend.createTodoCore s t0).2).id =
        ⟨200, .jobj (FileBackend.createTodoCore s t0).2⟩ :=
  fun s t0 h => FileBackend.getTodoCore_create s t0 h

/-- C9 witness: the round trip at a concrete invariant-satisfying state. -/
theorem c9_witness :
    FileBackend.Inv ⟨[⟨1, "a", false⟩], 2⟩ ∧
    FileBackend.getTodoCore
        (FileBackend.createTodoCore ⟨[⟨1, "a", false⟩], 2⟩ ⟨0, "x", false⟩).1
        ((FileBackend.createTodoCore ⟨[⟨1, "a", false⟩], 2⟩ ⟨0, "x", false⟩).2).id =
      ⟨200, .jobj (FileBackend.createTodoCore ⟨[⟨1, "a", false⟩], 2⟩ ⟨0, "x", false⟩).2⟩ :=
  ⟨by decide, c9_roundtrip ⟨[⟨1, "a", false⟩], 2⟩ ⟨0, "x", false⟩ (by decide)⟩

/-- C10: a client-supplied id in the POST body is ignored: the created id is
the file-backed counter resp. the serial column, in both variants. -/
theorem c10_client_id_ignored :
    (∀ (s : FileBackend.FState) (t0 : Todo) (i : Int),
      FileBackend.createTodoCore s { t0 with id := i } = FileBackend.createTodoCore s t0) ∧
    (∀ (s : FileBackend.FState) (t0 : Todo),
      ((FileBackend.createTodoCore s t0).2).id = s.nextID) ∧
    (∀ (db : PgBackend.DbState) (t0 : Todo) (i : Int),
      PgBackend.createTodoCore db { t0 with id := i } = PgBackend.createTodoCore db t0) ∧
    (∀ (db : PgBackend.DbState) (t0 : Todo),
      ((PgBackend.createTodoCore db t0).2).id = db.serial) :=
  ⟨fun _ _ _ => rfl, fun _ _ => rfl, fun _ _ _ => rfl, fun _ _ => rfl⟩
